import Mathlib

/-!
Verification of the keeper backend's sequencing and control-loop logic.

Each definition below is a shallow embedding of one function of the
TypeScript source (file and symbol given at the definition).  Machine
integers (JS `number` used as counters, `bigint`) are modelled as `Nat` /
`Int`; JS `bigint` division truncates toward zero, which is `Int.tdiv`
for possibly-negative values and plain `Nat` division for non-negative
ones.  Promise resolution is made observable through an explicit log.
-/

namespace Tethra

/-! ## NonceManager (src/unnamed/part_000, class NonceManager)

State of the singleton: `nonce` is `number | null`, `mutex` the boolean
flag, `queue` the array of queued resolvers.  A resolver is identified by
the id of the caller that registered it; `resolvedLog` records, in order,
every invocation of a resolver with its value — this is the observable
output of `getNonce` promises. -/

inductive GetNonceResult
  | resolved (value : Nat)
  | rejectedUninitialized
  | queued
  deriving Repr, DecidableEq

structure NonceManagerState where
  nonce : Option Nat
  mutex : Bool
  queue : List Nat
  resolvedLog : List (Nat × Nat)
  deriving Repr, DecidableEq

/-- Embeds `NonceManager.processQueue` (part_000 lines 98-107): the head
resolver is shifted off the queue, and — as the source itself remarks in
a comment — it is never invoked. -/
def processQueue (s : NonceManagerState) : NonceManagerState :=
  match s.queue with
  | [] => s
  | _ :: rest => { s with queue := rest }

/-- Embeds `NonceManager.getNonce` (part_000 lines 56-80).  When the mutex
is free: set it, run `execute` (reject when uninitialized, otherwise
resolve with the current counter and increment it), clear the mutex and
call `processQueue`.  When the mutex is held, the caller's resolver is
pushed onto the queue. -/
def getNonce (caller : Nat) (s : NonceManagerState) :
    GetNonceResult × NonceManagerState :=
  if s.mutex = false then
    match s.nonce with
    | none => (.rejectedUninitialized, processQueue { s with mutex := false })
    | some n =>
        (.resolved n,
          processQueue { s with
            nonce := some (n + 1)
            mutex := false
            resolvedLog := s.resolvedLog ++ [(caller, n)] })
  else
    (.queued, { s with queue := s.queue ++ [caller] })

/-- Embeds `NonceManager.getNonceBatch` (part_000 lines 85-96): resolve
with the current counter and advance it by `count`; no mutex, no queue. -/
def getNonceBatch (count : Nat) (s : NonceManagerState) :
    GetNonceResult × NonceManagerState :=
  match s.nonce with
  | none => (.rejectedUninitialized, s)
  | some n => (.resolved n, { s with nonce := some (n + count) })

/-- Embeds `NonceManager.resync` (part_000 lines 44-55): overwrite the
local counter with the ledger's pending-inclusive transaction count. -/
def resync (ledgerPendingCount : Nat) (s : NonceManagerState) : NonceManagerState :=
  { s with nonce := some ledgerPendingCount }

/-- An externally triggered event on the nonce manager: a `getNonce` call
by a given caller, or a `processQueue` run. -/
inductive NMOp
  | call (caller : Nat)
  | pq
  deriving Repr, DecidableEq

def runOps : List NMOp → NonceManagerState → NonceManagerState
  | [], s => s
  | .call c :: rest, s => runOps rest (getNonce c s).2
  | .pq :: rest, s => runOps rest (processQueue s)

/-- A sequence of `getNonce` calls by callers `cs` from an idle
initialized state resolves each caller in turn with consecutive values
`n, n+1, ...` and leaves the manager idle. -/
theorem runOps_calls_idle (cs : List Nat) (n : Nat) (log : List (Nat × Nat)) :
    runOps (cs.map NMOp.call) ⟨some n, false, [], log⟩ =
      ⟨some (n + cs.length), false, [], log ++ cs.zip (List.range' n cs.length)⟩ := by
  induction cs generalizing n log with
  | nil => simp [runOps]
  | cons c cs ih =>
      have hstep : getNonce c ⟨some n, false, [], log⟩ =
          (.resolved n, ⟨some (n + 1), false, [], log ++ [(c, n)]⟩) := rfl
      simp only [List.map_cons, runOps, hstep, ih, NonceManagerState.mk.injEq]
      refine ⟨?_, trivial, trivial, ?_⟩
      · simp only [Option.some.injEq, List.length_cons]
        omega
      · simp [List.range'_succ, List.append_assoc]

/-- C1: after `init` with counter value `initial` and before any
`resync`, `N` `getNonce()` calls hand out to their callers exactly the
values `initial, initial+1, ..., initial+N-1`, in order — `List.range'
initial N` is precisely that list, so no value is duplicated and none in
the range is skipped.  (In the source's single-threaded runtime the
critical section of `getNonce` runs synchronously, so any interleaving of
N calls is their sequential composition, which is what `runOps` runs.) -/
theorem getNonce_issues_contiguous_range (N initial : Nat) :
    ((runOps ((List.range N).map NMOp.call)
        ⟨some initial, false, [], []⟩).resolvedLog).map Prod.snd =
      List.range' initial N := by
  rw [runOps_calls_idle]
  simp [List.map_snd_zip, List.length_range, List.length_range']

/-- C2: `getNonceBatch k` in an idle initialized state with counter `v`
resolves with `v` and advances the counter to `v + k`; the `k`
`getNonce()` calls that could have been made from that same state would
have returned exactly `v, v+1, ..., v+k-1`; and the first `getNonce()`
call after the batch resolves with `v + k`. -/
theorem getNonceBatch_reserves_consecutive (v k : Nat) (callers : List Nat)
    (hk : callers.length = k) :
    getNonceBatch k ⟨some v, false, [], []⟩ =
      (.resolved v, ⟨some (v + k), false, [], []⟩) ∧
    ((runOps (callers.map NMOp.call)
        ⟨some v, false, [], []⟩).resolvedLog).map Prod.snd = List.range' v k ∧
    (getNonce 0 (getNonceBatch k ⟨some v, false, [], []⟩).2).1 =
      .resolved (v + k) := by
  refine ⟨rfl, ?_, rfl⟩
  rw [runOps_calls_idle]
  simp [List.map_snd_zip, hk, List.length_range']

theorem getNonceBatch_reserves_consecutive_witness :
    getNonceBatch 3 ⟨some 10, false, [], []⟩ =
      (.resolved 10, ⟨some 13, false, [], []⟩) ∧
    ((runOps ([5, 6, 7].map NMOp.call)
        ⟨some 10, false, [], []⟩).resolvedLog).map Prod.snd = List.range' 10 3 ∧
    (getNonce 0 (getNonceBatch 3 ⟨some 10, false, [], []⟩).2).1 = .resolved 13 :=
  getNonceBatch_reserves_consecutive 10 3 [5, 6, 7] (by decide)

/-- C9: the dequeue path never serves a queued caller.  Caller `7`
arrives while the mutex is held and is enqueued; the holder's release
then runs `processQueue`, which removes caller `7` from the queue without
invoking its resolver (the resolution log stays empty); and later traffic
resolves only its own callers — caller `7` is never handed a value. -/
theorem queued_caller_never_resolved :
    (getNonce 7 ⟨some 5, true, [], []⟩ =
      (.queued, ⟨some 5, true, [7], []⟩)) ∧
    (processQueue ⟨some 5, false, [7], []⟩ = ⟨some 5, false, [], []⟩) ∧
    ((runOps [.call 8, .pq, .call 9, .pq] ⟨some 5, false, [], []⟩).resolvedLog
      = [(8, 5), (9, 6)]) := by
  decide

/-! ## PythPriceService (src/src/services/PythPriceService.ts)

The stored quote per symbol (`PriceData`): the float `price`/`confidence`
values are never compared or combined by the logic under verification, so
they are carried as opaque integers. `timestamp` and `publishTime` are
both set to the parsed publish time in milliseconds. -/

structure PythQuote where
  symbol : String
  price : Int
  confidence : Int
  expo : Int
  timestamp : Int
  publishTime : Int
  deriving Repr, DecidableEq

/-- An incoming `price_update` message after parsing: the resolved feed
id, the parsed price/confidence (opaque), and `publish_time` in seconds. -/
structure PriceUpdateMsg where
  feedId : String
  price : Int
  confidence : Int
  expo : Int
  publishTimeSec : Int
  deriving Repr, DecidableEq

/-- Embeds `PythPriceService.processPriceUpdate` (PythPriceService.ts
lines 113-173).  `assetSymbolByFeedId` models the `assetByFeedId` lookup,
`now` is `Date.now()` at arrival, `currentPrices` the cache.  Returns the
new cache and whether `notifyPriceUpdate` ran (subscriber callbacks
invoked).  The only rejection tests are: unknown feed, and
`now - publishTime > 60000` — there is no comparison against the quote
already stored for the symbol. -/
def processPriceUpdate (assetSymbolByFeedId : String → Option String)
    (now : Int) (msg : PriceUpdateMsg)
    (currentPrices : String → Option PythQuote) :
    (String → Option PythQuote) × Bool :=
  match assetSymbolByFeedId msg.feedId with
  | none => (currentPrices, false)
  | some symbol =>
      let publishTime := msg.publishTimeSec * 1000
      let age := now - publishTime
      if age > 60000 then (currentPrices, false)
      else
        (fun s =>
          if s = symbol then
            some ⟨symbol, msg.price, msg.confidence, msg.expo,
                  publishTime, publishTime⟩
          else currentPrices s,
         true)

/-- C3 (counterexample): an update whose publish time (70000 ms) is older
than the stored quote's (100000 ms) but within the 60 s staleness bound
of the local clock (now = 120000 ms) is accepted: it overwrites the
stored quote — making the stored publish time decrease — and the
subscriber callbacks run. -/
theorem processPriceUpdate_accepts_older_than_stored :
    (processPriceUpdate
        (fun f => if f = "0xbtc" then some "BTC" else none)
        120000
        ⟨"0xbtc", 49000, 7, -8, 70⟩
        (fun s => if s = "BTC" then some ⟨"BTC", 50000, 3, -8, 100000, 100000⟩
                  else none)).1 "BTC"
      = some ⟨"BTC", 49000, 7, -8, 70000, 70000⟩ ∧
    (processPriceUpdate
        (fun f => if f = "0xbtc" then some "BTC" else none)
        120000
        ⟨"0xbtc", 49000, 7, -8, 70⟩
        (fun s => if s = "BTC" then some ⟨"BTC", 50000, 3, -8, 100000, 100000⟩
                  else none)).2 = true := by
  constructor <;> rfl

/-- C3 (amended): only staleness relative to the local clock is enforced.
An update whose publish time is more than 60 s older than `Date.now()` at
arrival leaves the cache untouched and invokes no subscriber callback;
an update within the bound is stored and forwarded even when it is older
than the stored quote, so the stored publish time per symbol is not
necessarily non-decreasing. -/
theorem processPriceUpdate_rejects_stale (assetSymbolByFeedId : String → Option String)
    (now : Int) (msg : PriceUpdateMsg) (currentPrices : String → Option PythQuote)
    (hstale : now - msg.publishTimeSec * 1000 > 60000) :
    (processPriceUpdate assetSymbolByFeedId now msg currentPrices).1 = currentPrices ∧
    (processPriceUpdate assetSymbolByFeedId now msg currentPrices).2 = false := by
  unfold processPriceUpdate
  cases assetSymbolByFeedId msg.feedId with
  | none => exact ⟨rfl, rfl⟩
  | some symbol => simp [hstale]

theorem processPriceUpdate_rejects_stale_witness :
    (processPriceUpdate (fun _ => some "BTC") 200000 ⟨"0xbtc", 1, 1, 0, 100⟩
        (fun _ => none)).1 = (fun _ => none) ∧
    (processPriceUpdate (fun _ => some "BTC") 200000 ⟨"0xbtc", 1, 1, 0, 100⟩
        (fun _ => none)).2 = false :=
  processPriceUpdate_rejects_stale (fun _ => some "BTC") 200000
    ⟨"0xbtc", 1, 1, 0, 100⟩ (fun _ => none) (by decide)

/-! ## PositionMonitor (src/src/services/PositionMonitor.ts)

On-chain integers (`bigint`) are modelled as `Int`; JS `bigint` division
truncates toward zero, i.e. `Int.tdiv`. -/

structure Position where
  id : Nat
  trader : String
  symbol : String
  isLong : Bool
  collateral : Int
  size : Int
  leverage : Int
  entryPrice : Int
  deriving Repr, DecidableEq

/-- An entry of the `currentPrices` map: price with 8 decimals and the
millisecond timestamp recorded when it was received. -/
structure PriceEntry where
  price : Int
  timestamp : Int
  deriving Repr, DecidableEq

/-- Outcome of the `riskManager.shouldLiquidate` remote call: a verdict,
or a thrown error (caught by the monitor, which then keeps the local
default `false`). -/
inductive RiskCallOutcome
  | verdict (shouldLiquidate : Bool)
  | threw
  deriving Repr, DecidableEq

inductive LiquidationDecision
  | skipNoPrice
  | skipStalePrice
  | keepOpen
  | liquidate
  deriving Repr, DecidableEq

/-- Embeds the local PnL computation of
`PositionMonitor.checkPositionLiquidation` (PositionMonitor.ts lines
244-254): `((current - entry) * size) / entry` for longs, mirrored for
shorts, with truncating bigint division. -/
def positionPnl (p : Position) (currentPrice : Int) : Int :=
  if p.isLong then ((currentPrice - p.entryPrice) * p.size).tdiv p.entryPrice
  else ((p.entryPrice - currentPrice) * p.size).tdiv p.entryPrice

/-- Embeds `pnlBps = (pnl * 10000) / collateral` (PositionMonitor.ts
lines 256-258): PnL in basis points of collateral. -/
def positionPnlBps (p : Position) (currentPrice : Int) : Int :=
  (positionPnl p currentPrice * 10000).tdiv p.collateral

/-- Embeds `PositionMonitor.checkPositionLiquidation` (PositionMonitor.ts
lines 226-303): skip when no quote or a stale quote; otherwise take the
remote verdict (`false` when the call throws) and override it to `true`
whenever the locally computed `pnlBps ≤ -9900`. -/
def checkPositionLiquidation (now : Int) (priceData : Option PriceEntry)
    (remote : RiskCallOutcome) (p : Position) : LiquidationDecision :=
  match priceData with
  | none => .skipNoPrice
  | some pd =>
      if now - pd.timestamp > 60000 then .skipStalePrice
      else
        let pnlBps := positionPnlBps p pd.price
        let remoteVerdict :=
          match remote with
          | .verdict b => b
          | .threw => false
        let shouldLiquidate := if pnlBps ≤ -9900 then true else remoteVerdict
        if shouldLiquidate then .liquidate else .keepOpen

/-- C5: with a fresh price, whenever the locally computed PnL in basis
points of collateral is at most -9900, the monitor decides to submit a
force-close, whatever the remote RiskManager outcome — including a thrown
remote call, which is caught and overridden by the local floor. -/
theorem forceLiquidation_floor_overrides_remote (now : Int) (pd : PriceEntry)
    (remote : RiskCallOutcome) (p : Position)
    (hfresh : now - pd.timestamp ≤ 60000)
    (hfloor : positionPnlBps p pd.price ≤ -9900) :
    checkPositionLiquidation now (some pd) remote p = .liquidate := by
  have h1 : ¬ now - pd.timestamp > 60000 := by omega
  simp [checkPositionLiquidation, h1, hfloor]

theorem forceLiquidation_floor_overrides_remote_witness :
    checkPositionLiquidation 0 (some ⟨10, 0⟩) .threw
      ⟨1, "t", "BTC", true, 100, 1000, 10, 2000⟩ = .liquidate :=
  forceLiquidation_floor_overrides_remote 0 ⟨10, 0⟩ .threw
    ⟨1, "t", "BTC", true, 100, 1000, 10, 2000⟩ (by decide) (by decide)

/-- C6 (counterexample): for the position entryPrice = 2000, long,
size = 1000, collateral = 100 at current price 1000 the code computes
pnl = -500 but pnlBps = -50000 (PnL is divided by the collateral of 100,
not by the size), not the claimed -5000; and since -50000 ≤ -9900, the
monitor force-liquidates even though the remote verdict is `false`,
contradicting the claimed "no liquidation". -/
theorem scenario_price1000_pnlBps_counterexample :
    positionPnl ⟨1, "t", "BTC", true, 100, 1000, 10, 2000⟩ 1000 = -500 ∧
    positionPnlBps ⟨1, "t", "BTC", true, 100, 1000, 10, 2000⟩ 1000 = -50000 ∧
    ¬ positionPnlBps ⟨1, "t", "BTC", true, 100, 1000, 10, 2000⟩ 1000 = -5000 ∧
    checkPositionLiquidation 0 (some ⟨1000, 0⟩) (.verdict false)
      ⟨1, "t", "BTC", true, 100, 1000, 10, 2000⟩ = .liquidate := by
  decide

/-- C6 (amended): for entryPrice = 2000, long, size = 1000,
collateral = 100: at current price 1000 the computation yields pnl = -500
and pnlBps = -50000 (-500% of collateral), which already reaches the
force floor, so liquidation triggers even with a remote verdict of
`false` (or a thrown remote call); at current price 10 it yields
pnl = -995 and pnlBps = -99500, likewise force-liquidating regardless of
the remote outcome. -/
theorem scenario_pnl_values_and_decisions :
    positionPnl ⟨1, "t", "BTC", true, 100, 1000, 10, 2000⟩ 1000 = -500 ∧
    positionPnlBps ⟨1, "t", "BTC", true, 100, 1000, 10, 2000⟩ 1000 = -50000 ∧
    checkPositionLiquidation 0 (some ⟨1000, 0⟩) (.verdict false)
      ⟨1, "t", "BTC", true, 100, 1000, 10, 2000⟩ = .liquidate ∧
    checkPositionLiquidation 0 (some ⟨1000, 0⟩) .threw
      ⟨1, "t", "BTC", true, 100, 1000, 10, 2000⟩ = .liquidate ∧
    positionPnl ⟨1, "t", "BTC", true, 100, 1000, 10, 2000⟩ 10 = -995 ∧
    positionPnlBps ⟨1, "t", "BTC", true, 100, 1000, 10, 2000⟩ 10 = -99500 ∧
    checkPositionLiquidation 0 (some ⟨10, 0⟩) (.verdict false)
      ⟨1, "t", "BTC", true, 100, 1000, 10, 2000⟩ = .liquidate ∧
    checkPositionLiquidation 0 (some ⟨10, 0⟩) .threw
      ⟨1, "t", "BTC", true, 100, 1000, 10, 2000⟩ = .liquidate := by
  decide

/-! ## TapToTradeExecutor (src/src/services/LimitOrderService.ts)

Ethereum addresses are compared lowercased in the source; they are
modelled as canonical numeric identifiers, so lowercased-string equality
becomes plain equality. -/

structure TapToTradeOrder where
  id : Nat
  trader : Nat
  symbol : String
  isLong : Bool
  collateral : Nat
  leverage : Nat
  triggerPrice : Int
  startTime : Int
  endTime : Int
  nonce : Nat
  sessionKey : Option Nat
  deriving Repr, DecidableEq

inductive OrderCheckResult
  | notYetInWindow
  | windowExpired
  | noPriceData
  | stalePrice
  | triggerNotMet
  | triggered
  deriving Repr, DecidableEq

/-- Embeds the per-order body of
`TapToTradeExecutor.checkAndExecuteOrders` (LimitOrderService.ts lines
319-364): skip before `startTime`, skip after `endTime`, skip without a
quote or with a quote older than 60 s; otherwise a long order executes
when current price ≤ trigger and a short when current price ≥ trigger.
`nowSec` is the Unix-second clock used for the window, `nowMs` the
millisecond clock used for quote freshness. -/
def checkOrderTrigger (nowSec nowMs : Int) (order : TapToTradeOrder)
    (priceData : Option PriceEntry) : OrderCheckResult :=
  if nowSec < order.startTime then .notYetInWindow
  else if nowSec > order.endTime then .windowExpired
  else
    match priceData with
    | none => .noPriceData
    | some pd =>
        if nowMs - pd.timestamp > 60000 then .stalePrice
        else
          let shouldExecute :=
            if order.isLong then decide (pd.price ≤ order.triggerPrice)
            else decide (pd.price ≥ order.triggerPrice)
          if shouldExecute then .triggered else .triggerNotMet

/-- C8: for a pending order inside its time window and with a fresh
quote, execution is attempted exactly when the trigger condition holds:
price ≤ trigger for a long order, price ≥ trigger for a short one. -/
theorem trigger_condition_iff_execution (nowSec nowMs : Int)
    (order : TapToTradeOrder) (pd : PriceEntry)
    (hstart : order.startTime ≤ nowSec) (hend : nowSec ≤ order.endTime)
    (hfresh : nowMs - pd.timestamp ≤ 60000) :
    checkOrderTrigger nowSec nowMs order (some pd) = .triggered ↔
      ((order.isLong = true ∧ pd.price ≤ order.triggerPrice) ∨
       (order.isLong = false ∧ order.triggerPrice ≤ pd.price)) := by
  have h1 : ¬ nowSec < order.startTime := by omega
  have h2 : ¬ nowSec > order.endTime := by omega
  have h3 : ¬ nowMs - pd.timestamp > 60000 := by omega
  cases hl : order.isLong <;>
    simp [checkOrderTrigger, h1, h2, h3, hl, ge_iff_le]

theorem trigger_condition_iff_execution_witness :
    checkOrderTrigger 50 1000 ⟨1, 2, "BTC", true, 100, 10, 1000, 0, 100, 0, none⟩
        (some ⟨999, 0⟩) = .triggered ↔
      ((true = true ∧ (999 : Int) ≤ 1000) ∨
       (true = false ∧ (1000 : Int) ≤ 999)) :=
  trigger_condition_iff_execution 50 1000
    ⟨1, 2, "BTC", true, 100, 10, 1000, 0, 100, 0, none⟩ ⟨999, 0⟩
    (by decide) (by decide) (by decide)

/-- Outcome of `TapToTradeExecutor.executeOrder`'s pre-flight phase: the
order is quarantined (`markedNeedsResign`), terminally failed
(`markedFailed`), or a submission transaction is sent via one of the two
paths.  A submission happens only in the last two cases. -/
inductive ExecuteOutcome
  | markedNeedsResign
  | markedFailed
  | submittedByKeeper
  | submittedMeta
  deriving Repr, DecidableEq

/-- Embeds the pre-flight checks of `TapToTradeExecutor.executeOrder`
(LimitOrderService.ts lines 417-517): compare the order's recorded nonce
with the on-chain `metaNonces(trader)` counter and quarantine on
mismatch; then recover the signer of the recorded signature (`recovered`
models `ethers.recoverAddress`, which can throw) and fail unless it
matches the trader or the order's session-key address; only then submit,
via the keeper-only path when a session key is present and via the
meta-transaction path otherwise. -/
def executeOrderPreflight (order : TapToTradeOrder) (chainNonce : Nat)
    (recovered : Except Unit Nat) : ExecuteOutcome :=
  if order.nonce ≠ chainNonce then .markedNeedsResign
  else
    match recovered with
    | .error _ => .markedFailed
    | .ok signer =>
        let isValidSigner : Bool :=
          (signer == order.trader) ||
            (match order.sessionKey with
             | some sk => signer == sk
             | none => false)
        if isValidSigner then
          match order.sessionKey with
          | some _ => .submittedByKeeper
          | none => .submittedMeta
        else .markedFailed

/-- C7: whenever the on-chain authorization counter differs from the
order's recorded nonce, the order is marked `NeedsResign` and nothing is
submitted; and when the counter matches but the recovered signer is
neither the trader nor the order's session-key address, the order is
marked `Failed` and nothing is submitted (the two submission outcomes are
distinct constructors, so both conclusions exclude them). -/
theorem preflight_auth_checks (order : TapToTradeOrder) (chainNonce : Nat)
    (recovered : Except Unit Nat) :
    (order.nonce ≠ chainNonce →
      executeOrderPreflight order chainNonce recovered = .markedNeedsResign) ∧
    (∀ signer, order.nonce = chainNonce → recovered = .ok signer →
      signer ≠ order.trader →
      (∀ sk, order.sessionKey = some sk → signer ≠ sk) →
      executeOrderPreflight order chainNonce recovered = .markedFailed) := by
  constructor
  · intro hne
    simp [executeOrderPreflight, hne]
  · intro signer hnonce hrec htrader hsk
    subst hrec
    have hvalid :
        ((signer == order.trader) ||
          (match order.sessionKey with
           | some sk => signer == sk
           | none => false)) = false := by
      cases hk : order.sessionKey with
      | none => simp [htrader]
      | some sk => simp [htrader, hsk sk hk]
    simp [executeOrderPreflight, hnonce, hvalid]

theorem preflight_auth_checks_witness :
    executeOrderPreflight ⟨1, 2, "BTC", true, 100, 10, 1000, 0, 100, 5, some 3⟩
        6 (.ok 2) = .markedNeedsResign ∧
    executeOrderPreflight ⟨1, 2, "BTC", true, 100, 10, 1000, 0, 100, 5, some 3⟩
        5 (.ok 99) = .markedFailed :=
  ⟨(preflight_auth_checks ⟨1, 2, "BTC", true, 100, 10, 1000, 0, 100, 5, some 3⟩
      6 (.ok 2)).1 (by decide),
   (preflight_auth_checks ⟨1, 2, "BTC", true, 100, 10, 1000, 0, 100, 5, some 3⟩
      5 (.ok 99)).2 99 rfl rfl (by decide)
      (fun sk hsk => by
        injection hsk with h
        subst h
        decide)⟩

/-! ## RelayService (src/src/services/RelayService.ts)

Errors carry the fields inspected by `isNonceError`.  JS string
operations (`toLowerCase`, `includes`) are modelled over character
lists so that they evaluate inside the kernel. -/

structure RelayError where
  code : Option String
  message : Option String
  infoMessage : Option String
  deriving Repr, DecidableEq

/-- Model of JS `String.prototype.includes`: `pat` occurs contiguously
inside `s`. -/
def charsContain (s pat : List Char) : Bool :=
  (List.range (s.length + 1)).any (fun i => pat.isPrefixOf (s.drop i))

/-- Model of JS `toLowerCase()` producing a character list. -/
def lowerChars (s : String) : List Char :=
  s.toList.map Char.toLower

/-- Embeds `RelayService.isNonceError` (RelayService.ts lines 133-146):
the error is a sequence conflict when its code is `NONCE_EXPIRED` or its
(lowercased) message or nested info message contains `nonce` or
`replacement transaction underpriced`. -/
def isNonceError (e : RelayError) : Bool :=
  let msg := lowerChars (e.message.getD "")
  let infoMsg := lowerChars (e.infoMessage.getD "")
  e.code == some "NONCE_EXPIRED" ||
    charsContain msg "nonce".toList ||
    charsContain msg "replacement transaction underpriced".toList ||
    charsContain infoMsg "nonce".toList ||
    charsContain infoMsg "replacement transaction underpriced".toList

/-- Outcome of one `sendTransaction` attempt: accepted by the network, or
thrown with an error. -/
inductive SendOutcome
  | accepted
  | failed (e : RelayError)
  deriving Repr, DecidableEq

inductive RelayResult
  | sent (usedNonce : Nat)
  | retriesExhausted
  | rethrown (e : RelayError)
  deriving Repr, DecidableEq

/-- Result of a `relayTransaction` run: the terminal result, how many
times `NonceManager.resync()` ran, and the nonce counter afterwards. -/
structure RelayRun where
  result : RelayResult
  resyncCount : Nat
  nextNonce : Nat
  deriving Repr, DecidableEq

/-- Embeds the retry loop of `RelayService.relayTransaction`
(RelayService.ts lines 183-215).  Each iteration consumes one nonce from
the manager (`ctr`) and sends; `outcome i` is the result of the send made
with `attempt = i`.  A sequence-conflict error (per `isNonceError`)
increments `attempt`, resyncs the counter from the ledger (`ledger rs` is
the pending-inclusive count read by the `rs`-th resync) and retries; any
other error is rethrown at once.  `fuel` is `MAX_RETRIES - attempt`, so
the loop guard `attempt < MAX_RETRIES` is `fuel > 0`; when it runs out,
`tx` is still undefined and the terminal failure is reported. -/
def relaySendLoop (ledger : Nat → Nat) (outcome : Nat → SendOutcome) :
    Nat → Nat → Nat → Nat → RelayRun
  | 0, _, ctr, rs => ⟨.retriesExhausted, rs, ctr⟩
  | fuel + 1, attempt, ctr, rs =>
      match outcome attempt with
      | .accepted => ⟨.sent ctr, rs, ctr + 1⟩
      | .failed e =>
          if isNonceError e then
            relaySendLoop ledger outcome fuel (attempt + 1) (ledger rs) (rs + 1)
          else ⟨.rethrown e, rs, ctr + 1⟩

/-- Embeds `RelayService.relayTransaction` from the first `getNonce` on:
`MAX_RETRIES = 3`, starting at `attempt = 0` with the manager's counter
at `initialNonce` and no resync yet. -/
def relayTransaction (ledger : Nat → Nat) (outcome : Nat → SendOutcome)
    (initialNonce : Nat) : RelayRun :=
  relaySendLoop ledger outcome 3 0 initialNonce 0

/-- C4: the submission is retried only on sequence-conflict errors, with
a `resync()` before each retry and a ceiling of 3 attempts reported as a
terminal failure; a non-conflict error is rethrown at once with no
further attempt and no further resync (in particular on the very first
attempt, with zero resyncs); and a run hitting a conflict twice then
succeeding completes with exactly two resyncs, using exactly the one
value read by the final resync (`ledger 1`), the counter ending one past
it. -/
theorem relayTransaction_retry_policy (ledger : Nat → Nat)
    (outcome : Nat → SendOutcome) (n0 : Nat) :
    (∀ e, outcome 0 = .failed e → isNonceError e = false →
      relayTransaction ledger outcome n0 = ⟨.rethrown e, 0, n0 + 1⟩) ∧
    (∀ e0 e1, outcome 0 = .failed e0 → isNonceError e0 = true →
      outcome 1 = .failed e1 → isNonceError e1 = false →
      relayTransaction ledger outcome n0 = ⟨.rethrown e1, 1, ledger 0 + 1⟩) ∧
    ((∀ i, i < 3 → ∃ e, outcome i = .failed e ∧ isNonceError e = true) →
      relayTransaction ledger outcome n0 = ⟨.retriesExhausted, 3, ledger 2⟩) ∧
    (∀ e0 e1, outcome 0 = .failed e0 → isNonceError e0 = true →
      outcome 1 = .failed e1 → isNonceError e1 = true →
      outcome 2 = .accepted →
      relayTransaction ledger outcome n0 = ⟨.sent (ledger 1), 2, ledger 1 + 1⟩) := by
  refine ⟨?_, ?_, ?_, ?_⟩
  · intro e h0 hn
    simp [relayTransaction, relaySendLoop, h0, hn]
  · intro e0 e1 h0 hn0 h1 hn1
    simp [relayTransaction, relaySendLoop, h0, hn0, h1, hn1]
  · intro hall
    obtain ⟨e0, h0, hn0⟩ := hall 0 (by omega)
    obtain ⟨e1, h1, hn1⟩ := hall 1 (by omega)
    obtain ⟨e2, h2, hn2⟩ := hall 2 (by omega)
    simp [relayTransaction, relaySendLoop, h0, hn0, h1, hn1, h2, hn2]
  · intro e0 e1 h0 hn0 h1 hn1 h2
    simp [relayTransaction, relaySendLoop, h0, hn0, h1, hn1, h2]

theorem relayTransaction_retry_policy_witness :
    relayTransaction (fun i => 100 + i)
      (fun n =>
        if n = 0 then .failed ⟨none, some "nonce has already been used", none⟩
        else if n = 1 then .failed ⟨some "NONCE_EXPIRED", none, none⟩
        else .accepted)
      40 = ⟨.sent 101, 2, 102⟩ :=
  (relayTransaction_retry_policy (fun i => 100 + i)
      (fun n =>
        if n = 0 then .failed ⟨none, some "nonce has already been used", none⟩
        else if n = 1 then .failed ⟨some "NONCE_EXPIRED", none, none⟩
        else .accepted)
      40).2.2.2
    ⟨none, some "nonce has already been used", none⟩
    ⟨some "NONCE_EXPIRED", none, none⟩
    rfl (by decide) rfl (by decide) rfl

/-- Result of the settlement computation of
`RelayService.closePositionGasless`. -/
structure CloseSettlement where
  tradingFee : Nat
  relayerFee : Nat
  treasuryFee : Nat
  refundAmount : Int
  deriving Repr, DecidableEq

/-- Embeds the fee/refund computation of
`RelayService.closePositionGasless` (RelayService.ts lines 305-331):
`tradingFee = collateral * 5 / 10000` (0.05% of collateral),
`relayerFee = tradingFee * 2000 / 10000` (20% of the fee),
`treasuryFee = tradingFee - relayerFee`; the refund is
`collateral + pnl - tradingFee` for non-negative pnl, and for a loss it
is `collateral - |pnl| - tradingFee` when the collateral strictly covers
loss plus fee and `0` otherwise.  `collateral` is a `uint256`, so `Nat`;
`pnl` is a signed on-chain value, so `Int`; all quantities here are
non-negative, where bigint division coincides with `Nat` division. -/
def closePositionSettlement (collateral : Nat) (pnl : Int) : CloseSettlement :=
  let tradingFee := collateral * 5 / 10000
  let relayerFee := tradingFee * 2000 / 10000
  let treasuryFee := tradingFee - relayerFee
  let refundAmount : Int :=
    if 0 ≤ pnl then (collateral : Int) + pnl - (tradingFee : Int)
    else
      let absLoss := -pnl
      if absLoss + (tradingFee : Int) < (collateral : Int) then
        (collateral : Int) - absLoss - (tradingFee : Int)
      else 0
  ⟨tradingFee, relayerFee, treasuryFee, refundAmount⟩

/-- C10: in the gasless close settlement, the trading fee is
`collateral * 5 / 10000` with integer division, the fee split is exact
(`relayerFee = tradingFee * 2000 / 10000` and
`relayerFee + treasuryFee = tradingFee`), the computed refund is never
negative, and when the position is at a loss that together with the fee
consumes the collateral the refund is exactly `0`. -/
theorem closeSettlement_fee_split (collateral : Nat) (pnl : Int) :
    (closePositionSettlement collateral pnl).tradingFee = collateral * 5 / 10000 ∧
    (closePositionSettlement collateral pnl).relayerFee =
      (closePositionSettlement collateral pnl).tradingFee * 2000 / 10000 ∧
    (closePositionSettlement collateral pnl).relayerFee +
        (closePositionSettlement collateral pnl).treasuryFee =
      (closePositionSettlement collateral pnl).tradingFee ∧
    0 ≤ (closePositionSettlement collateral pnl).refundAmount ∧
    (pnl < 0 →
      (collateral : Int) ≤ -pnl + ((closePositionSettlement collateral pnl).tradingFee : Int) →
      (closePositionSettlement collateral pnl).refundAmount = 0) := by
  have hfee : collateral * 5 / 10000 ≤ collateral := by omega
  have hsplit : collateral * 5 / 10000 * 2000 / 10000 ≤ collateral * 5 / 10000 := by
    omega
  refine ⟨rfl, rfl, by simp [closePositionSettlement]; omega, ?_, ?_⟩
  · simp only [closePositionSettlement]
    split
    · omega
    · split
      · omega
      · omega
  · intro hneg hcover
    simp only [closePositionSettlement] at hcover ⊢
    rw [if_neg (by omega), if_neg (by omega)]

theorem closeSettlement_fee_split_witness :
    0 ≤ (closePositionSettlement 1000000 (-2000000)).refundAmount ∧
    (closePositionSettlement 1000000 (-2000000)).refundAmount = 0 :=
  ⟨(closeSettlement_fee_split 1000000 (-2000000)).2.2.2.1,
   (closeSettlement_fee_split 1000000 (-2000000)).2.2.2.2
     (by decide) (by decide)⟩

end Tethra
